import Mathlib

/-!
# Verification of the message synchronization engine

Shallow embedding of the message reconciliation logic of the chat client
(src/hooks/useChat.ts and src/pages/ChatRoom.tsx) together with proofs of
the spec's testable properties.

Conventions of the embedding:
* Timestamps are ISO-8601 strings in the source, compared lexicographically
  (which coincides with chronological order) and via Date.getTime()
  millisecond arithmetic; we model them as integers (milliseconds).
* Nullable columns become Option values, with none standing for SQL null.
* React state setters become explicit state passing: each handler is a
  function from the prior state to the next state, and asynchronous remote
  calls are modelled by a Bool parameter saying whether the call succeeded.
* toast notifications are modelled as Bool/record fields of the result.
-/

/-- The Message row type (src/types: messages.Row), with timestamps as
integer milliseconds and nullable columns as Option. -/
structure Message where
  id : String
  content : String
  sender_id : String
  receiver_id : String
  created_at : Int
  read_at : Option Int
  deleted_at : Option Int
  edited_at : Option Int
  original_content : Option String
  deleted_by : Option String
deriving Repr, DecidableEq

/-- The MessagePayload shape delivered by real-time events
(ChatRoom.tsx, interface MessagePayload): same columns as Message.
A none field models a null field of the payload. -/
structure MessagePayload where
  id : String
  content : String
  sender_id : String
  receiver_id : String
  created_at : Int
  read_at : Option Int
  deleted_at : Option Int
  edited_at : Option Int
  original_content : Option String
  deleted_by : Option String
deriving Repr, DecidableEq

/-- A concrete message used for witnesses and counterexamples. -/
def msgAt (i : String) (t : Int) : Message :=
  { id := i, content := "hi", sender_id := "alice", receiver_id := "bob",
    created_at := t, read_at := none, deleted_at := none, edited_at := none,
    original_content := none, deleted_by := none }

/-- Insert handler shared by the postgres-changes INSERT callback in
useChat.ts (setupRealtimeSubscriptions) and by ChatRoom.handleNewMessage:
if a message with the same id is already in the list the event is a no-op,
otherwise the new message is appended at the end of the list. -/
def insertMessage (prev : List Message) (m : Message) : List Message :=
  if prev.any (fun msg => msg.id == m.id) then prev else prev ++ [m]

/-- Number of messages in the store carrying a given id. -/
def countId (l : List Message) (i : String) : Nat :=
  (l.filter (fun m => m.id == i)).length

/-- The store's visible order is ascending by created_at. -/
def sortedByCreatedAt (l : List Message) : Prop :=
  l.Pairwise (fun a b => a.created_at ≤ b.created_at)

instance (l : List Message) : Decidable (sortedByCreatedAt l) := by
  unfold sortedByCreatedAt
  infer_instance

/-- Applying the insert handler n times with the same event. -/
def applyInsertN (m : Message) : Nat → List Message → List Message
  | 0, s => s
  | n + 1, s => applyInsertN m n (insertMessage s m)

lemma insertMessage_of_absent {s : List Message} {m : Message}
    (h : countId s m.id = 0) : insertMessage s m = s ++ [m] := by
  unfold insertMessage
  rw [if_neg]
  intro hany
  rcases List.any_eq_true.mp hany with ⟨x, hx, hbeq⟩
  have hxid : x.id = m.id := by simpa using hbeq
  have : x ∈ s.filter (fun m' => m'.id == m.id) :=
    List.mem_filter.mpr ⟨hx, by simpa using hxid⟩
  have hlen : 0 < (s.filter (fun m' => m'.id == m.id)).length :=
    List.length_pos.mpr (by intro hnil; rw [hnil] at this; exact (List.not_mem_nil x) this)
  unfold countId at h
  omega

lemma insertMessage_of_present {s : List Message} {m : Message}
    (h : 0 < countId s m.id) : insertMessage s m = s := by
  unfold insertMessage
  rw [if_pos]
  have hne : s.filter (fun m' => m'.id == m.id) ≠ [] := by
    intro hnil
    unfold countId at h
    rw [hnil] at h
    simp at h
  rcases List.exists_mem_of_ne_nil _ hne with ⟨x, hx⟩
  rcases List.mem_filter.mp hx with ⟨hxs, hxid⟩
  exact List.any_eq_true.mpr ⟨x, hxs, hxid⟩

lemma countId_append_singleton (s : List Message) (m : Message) :
    countId (s ++ [m]) m.id = countId s m.id + 1 := by
  unfold countId
  rw [List.filter_append]
  simp

lemma applyInsertN_of_present {m : Message} :
    ∀ (k : Nat) (t : List Message), 0 < countId t m.id → applyInsertN m k t = t := by
  intro k
  induction k with
  | zero => intro t _; rfl
  | succ n ih =>
    intro t ht
    unfold applyInsertN
    rw [insertMessage_of_present ht]
    exact ih t ht

/-- C2. The insert handlers are idempotent: starting from a store not yet
containing the event's id, applying the same insert event any number
n ≥ 1 of times (whatever the mix of transports, since broadcast,
change-stream and poll-fed inserts all run this handler) leaves exactly one
message with that id, and every application after the first returns the
store unchanged. -/
theorem insert_event_idempotent (s : List Message) (m : Message) (n : Nat)
    (h0 : countId s m.id = 0) (hn : 1 ≤ n) :
    countId (applyInsertN m n s) m.id = 1 ∧
      ∀ k, applyInsertN m (k + 1) s = applyInsertN m 1 s := by
  have hfirst : ∀ k, applyInsertN m (k + 1) s = s ++ [m] := by
    intro k
    show applyInsertN m k (insertMessage s m) = s ++ [m]
    rw [insertMessage_of_absent h0]
    exact applyInsertN_of_present k (s ++ [m])
      (by rw [countId_append_singleton, h0]; omega)
  constructor
  · obtain ⟨k, rfl⟩ : ∃ k, n = k + 1 := ⟨n - 1, by omega⟩
    rw [hfirst k, countId_append_singleton, h0]
  · intro k
    rw [hfirst k, hfirst 0]

/-- C2 witness: three deliveries of one insert leave exactly one copy. -/
theorem insert_event_idempotent_witness :
    countId [msgAt "a" 1] (msgAt "x" 5).id = 0 ∧
      countId (applyInsertN (msgAt "x" 5) 3 [msgAt "a" 1]) (msgAt "x" 5).id = 1 := by
  refine ⟨by decide, ?_⟩
  exact (insert_event_idempotent [msgAt "a" 1] (msgAt "x" 5) 3 (by decide) (by decide)).1

/-- C1 counterexample: insertion position is not computed — the handler
appends blindly — so two inserts arriving out of created_at order leave the
snapshot unsorted: inserting the message with created_at 2 and then the one
with created_at 1 yields a list that is not ascending by created_at. -/
theorem insert_out_of_order_unsorted :
    ¬ sortedByCreatedAt (insertMessage (insertMessage [] (msgAt "b" 2)) (msgAt "a" 1)) := by
  decide

lemma sorted_insertMessage {l : List Message} {m : Message}
    (hl : sortedByCreatedAt l) (hm : ∀ a ∈ l, a.created_at ≤ m.created_at) :
    sortedByCreatedAt (insertMessage l m) := by
  unfold insertMessage
  by_cases h : l.any (fun msg => msg.id == m.id)
  · rw [if_pos h]; exact hl
  · rw [if_neg h]
    unfold sortedByCreatedAt at *
    rw [List.pairwise_append]
    exact ⟨hl, List.pairwise_singleton _ _, fun a ha b hb => by
      rw [List.mem_singleton] at hb
      subst hb
      exact hm a ha⟩

lemma foldl_insert_sorted :
    ∀ (events acc : List Message), sortedByCreatedAt acc →
      (∀ a ∈ acc, ∀ e ∈ events, a.created_at ≤ e.created_at) →
      sortedByCreatedAt events →
      sortedByCreatedAt (events.foldl insertMessage acc) := by
  intro events
  induction events with
  | nil => intro acc hacc _ _; exact hacc
  | cons e rest ih =>
    intro acc hacc hcross hev
    rw [List.foldl_cons]
    have hev' := (List.pairwise_cons.mp hev)
    apply ih
    · exact sorted_insertMessage hacc (fun a ha => hcross a ha e (List.mem_cons_self e rest))
    · intro a ha r hr
      unfold insertMessage at ha
      by_cases h : acc.any (fun msg => msg.id == e.id)
      · rw [if_pos h] at ha
        exact hcross a ha r (List.mem_cons_of_mem _ hr)
      · rw [if_neg h] at ha
        rcases List.mem_append.mp ha with h1 | h1
        · exact hcross a h1 r (List.mem_cons_of_mem _ hr)
        · rw [List.mem_singleton] at h1
          subst h1
          exact hev'.1 r hr
    · exact hev'.2

/-- C1 amended: inserts are appended at the end of the list (after the
duplicate-id check), not placed at a computed position; consequently the
snapshot is sorted ascending by created_at provided the insert events are
delivered in ascending created_at order. -/
theorem snapshot_sorted_of_ordered_arrival (events : List Message)
    (h : sortedByCreatedAt events) :
    sortedByCreatedAt (events.foldl insertMessage []) :=
  foldl_insert_sorted events [] (List.Pairwise.nil) (by intro a ha; cases ha) h

/-- C1 amended witness: an in-order arrival sequence yields a sorted snapshot. -/
theorem snapshot_sorted_of_ordered_arrival_witness :
    sortedByCreatedAt [msgAt "a" 1, msgAt "b" 2, msgAt "c" 3] ∧
      sortedByCreatedAt
        ([msgAt "a" 1, msgAt "b" 2, msgAt "c" 3].foldl insertMessage []) :=
  ⟨by decide, snapshot_sorted_of_ordered_arrival _ (by decide)⟩

/-- Model of the TypeScript `a || b` fallback on nullable columns (the
operands are ISO-timestamp strings or ids, never the empty string, so
falsiness coincides with null). -/
def orNull {α : Type} (a b : Option α) : Option α :=
  match a with
  | some v => some v
  | none => b

/-- Field-level merge of ChatRoom.handleMessageUpdate: content is always
taken from the event; read_at, deleted_at, edited_at, original_content and
deleted_by each take the event's value when non-null and otherwise keep the
local value; id, sender_id, receiver_id and created_at are untouched. -/
def mergeMessage (old : Message) (u : MessagePayload) : Message :=
  { old with
    content := u.content
    read_at := orNull u.read_at old.read_at
    deleted_at := orNull u.deleted_at old.deleted_at
    edited_at := orNull u.edited_at old.edited_at
    original_content := orNull u.original_content old.original_content
    deleted_by := orNull u.deleted_by old.deleted_by }

/-- findIndex followed by copy-with-replacement at that index, as both
UPDATE handlers do: the first message satisfying p is replaced by its image
under f; when none matches the list is returned unchanged. -/
def updateFirst (p : Message → Bool) (f : Message → Message) : List Message → List Message
  | [] => []
  | m :: rest => if p m then f m :: rest else m :: updateFirst p f rest

/-- Store part of ChatRoom.handleMessageUpdate: field-level merge into the
first message with the event's id. -/
def chatRoomUpdateMessages (prev : List Message) (u : MessagePayload) : List Message :=
  updateFirst (fun m => m.id == u.id) (fun old => mergeMessage old u) prev

/-- The spread `{ ...prev[i], ...updatedMessage }` in useChat's UPDATE
callback: the postgres-changes payload carries every column of the row, so
the spread replaces every field of the local message with the event's
value, nulls included. -/
def rowToMessage (u : MessagePayload) : Message :=
  { id := u.id, content := u.content, sender_id := u.sender_id,
    receiver_id := u.receiver_id, created_at := u.created_at,
    read_at := u.read_at, deleted_at := u.deleted_at, edited_at := u.edited_at,
    original_content := u.original_content, deleted_by := u.deleted_by }

/-- Store part of useChat's postgres-changes UPDATE callback. -/
def useChatUpdateMessages (prev : List Message) (u : MessagePayload) : List Message :=
  updateFirst (fun m => m.id == u.id) (fun _old => rowToMessage u) prev

/-- A locally edited message: content changed and edited_at set. -/
def cEdited : Message :=
  { msgAt "m1" 10 with content := "hello there", edited_at := some 50 }

/-- A stale read-receipt event for the same message: read_at set, every
other nullable column null. -/
def cStaleRead : MessagePayload :=
  { id := "m1", content := "hello world", sender_id := "alice",
    receiver_id := "bob", created_at := 10, read_at := some 60,
    deleted_at := none, edited_at := none, original_content := none,
    deleted_by := none }

/-- C3 counterexample: the useChat UPDATE handler does not restrict the
overwrite to non-null incoming fields. A local message with
edited_at = some 50 hit by an update event whose edited_at is null ends up
with edited_at = none: the null field of the event clobbers the prior local
value instead of retaining it. -/
theorem update_nulls_clobber_fields :
    cEdited.edited_at = some 50 ∧ cStaleRead.edited_at = none ∧
      (useChatUpdateMessages [cEdited] cStaleRead).map Message.edited_at = [none] := by
  decide

lemma chatRoomUpdate_singleton {old : Message} {u : MessagePayload}
    (h : u.id = old.id) :
    chatRoomUpdateMessages [old] u = [mergeMessage old u] := by
  simp [chatRoomUpdateMessages, updateFirst, h]

/-- C3 amended: the field-level merge guarantee holds for the direct
channel handler ChatRoom.handleMessageUpdate (content always comes from the
event; every other field is overwritten only when non-null in the event),
and in particular a read-only update and an edit-only update commute,
leaving both read_at and edited_at set. The useChat postgres-changes UPDATE
handler instead replaces every field with the incoming row's values, nulls
included. -/
theorem merge_retains_unset_fields (old : Message) (u uR uE : MessagePayload)
    (hR : uR.id = old.id) (hE : uE.id = old.id)
    (hor : old.read_at = none) (hoe : old.edited_at = none)
    (hRe : uR.edited_at = none) (hEr : uE.read_at = none) :
    ((mergeMessage old u).content = u.content
      ∧ (u.read_at = none → (mergeMessage old u).read_at = old.read_at)
      ∧ (∀ v, u.read_at = some v → (mergeMessage old u).read_at = some v)
      ∧ (u.edited_at = none → (mergeMessage old u).edited_at = old.edited_at)
      ∧ (∀ v, u.edited_at = some v → (mergeMessage old u).edited_at = some v)
      ∧ (u.deleted_at = none → (mergeMessage old u).deleted_at = old.deleted_at)
      ∧ (∀ v, u.deleted_at = some v → (mergeMessage old u).deleted_at = some v)
      ∧ (u.original_content = none →
          (mergeMessage old u).original_content = old.original_content)
      ∧ (u.deleted_by = none → (mergeMessage old u).deleted_by = old.deleted_by))
    ∧ ((chatRoomUpdateMessages (chatRoomUpdateMessages [old] uR) uE).map
          (fun m => (m.read_at, m.edited_at)) = [(uR.read_at, uE.edited_at)]
      ∧ (chatRoomUpdateMessages (chatRoomUpdateMessages [old] uE) uR).map
          (fun m => (m.read_at, m.edited_at)) = [(uR.read_at, uE.edited_at)]) := by
  constructor
  · refine ⟨rfl, ?_, ?_, ?_, ?_, ?_, ?_, ?_, ?_⟩ <;>
      first
        | (intro h; simp [mergeMessage, orNull, h])
        | (intro v h; simp [mergeMessage, orNull, h])
  · have hidR : (mergeMessage old uR).id = old.id := rfl
    have hidE : (mergeMessage old uE).id = old.id := rfl
    rw [chatRoomUpdate_singleton hR, chatRoomUpdate_singleton hE,
      chatRoomUpdate_singleton (show uE.id = (mergeMessage old uR).id from hE),
      chatRoomUpdate_singleton (show uR.id = (mergeMessage old uE).id from hR)]
    cases hur : uR.read_at <;> cases hue : uE.edited_at <;>
      simp [mergeMessage, orNull, hor, hoe, hRe, hEr, hur, hue]

/-- A message with read_at and edited_at both null. -/
def wOld : Message := msgAt "w1" 10

/-- An update carrying only a read receipt. -/
def wRead : MessagePayload :=
  { id := "w1", content := "hi", sender_id := "alice", receiver_id := "bob",
    created_at := 10, read_at := some 60, deleted_at := none,
    edited_at := none, original_content := none, deleted_by := none }

/-- An update carrying only an edit. -/
def wEdit : MessagePayload :=
  { id := "w1", content := "hi!", sender_id := "alice", receiver_id := "bob",
    created_at := 10, read_at := none, deleted_at := none,
    edited_at := some 50, original_content := some "hi", deleted_by := none }

/-- C3 amended witness: a read-only and an edit-only update, applied by the
merge handler in either order, leave both read_at and edited_at set. -/
theorem merge_retains_unset_fields_witness :
    (chatRoomUpdateMessages (chatRoomUpdateMessages [wOld] wRead) wEdit).map
        (fun m => (m.read_at, m.edited_at)) = [(wRead.read_at, wEdit.edited_at)]
    ∧ (chatRoomUpdateMessages (chatRoomUpdateMessages [wOld] wEdit) wRead).map
        (fun m => (m.read_at, m.edited_at)) = [(wRead.read_at, wEdit.edited_at)] :=
  (merge_retains_unset_fields wOld wRead wRead wEdit (by decide) (by decide)
    (by decide) (by decide) (by decide) (by decide)).2

lemma find_updateFirst (p : Message → Bool) (f : Message → Message)
    (hpf : ∀ m, p m = true → p (f m) = true) :
    ∀ l : List Message, (updateFirst p f l).find? p = (l.find? p).map f := by
  intro l
  induction l with
  | nil => rfl
  | cons m rest ih =>
    by_cases h : p m
    · simp [updateFirst, h, List.find?_cons_of_pos, hpf m h]
    · simp only [updateFirst, if_neg h]
      rw [List.find?_cons_of_neg _ (by simpa using h),
        List.find?_cons_of_neg _ (by simpa using h), ih]

/-- State left by useChat's postgres-changes UPDATE callback: the next
message list, the editing state (editingMessage, editContent) and whether
the "edited by the sender" toast fired. -/
structure UpdateHandlerResult where
  messages : List Message
  editingMessage : Option Message
  editContent : String
  notified : Bool
deriving Repr, DecidableEq

/-- useChat's postgres-changes UPDATE callback: merge the event into the
store by spread, and, if the updated message is the one currently being
edited and the event's sender is not the current user, cancel editing and
notify. -/
def useChatUpdateHandler (messages : List Message) (editingMessage : Option Message)
    (editContent : String) (currentUserId : String) (u : MessagePayload) :
    UpdateHandlerResult :=
  let newMessages := useChatUpdateMessages messages u
  if editingMessage.map Message.id = some u.id ∧ u.sender_id ≠ currentUserId then
    { messages := newMessages, editingMessage := none, editContent := "",
      notified := true }
  else
    { messages := newMessages, editingMessage := editingMessage,
      editContent := editContent, notified := false }

/-- State left by ChatRoom.handleMessageUpdate: the next message list, the
editing ref (currentEditingMessageIdRef), the editing state and whether a
toast fired. -/
structure ChatRoomUpdateResult where
  messages : List Message
  editingId : Option String
  editingMessage : Option Message
  editContent : String
  notified : Bool
deriving Repr, DecidableEq

/-- ChatRoom.handleMessageUpdate: if the event targets the message under
edit and comes from another sender, then a deletion event cancels the edit
with a toast, while an edit event toasts and replaces the edit draft with
the event's content (keeping the edit active); the store is always updated
by field-level merge. -/
def chatRoomUpdateHandler (messages : List Message) (editingId : Option String)
    (editingMessage : Option Message) (editContent : String)
    (sessionUserId : Option String) (u : MessagePayload) : ChatRoomUpdateResult :=
  let newMessages := chatRoomUpdateMessages messages u
  if editingId = some u.id ∧ some u.sender_id ≠ sessionUserId then
    if u.deleted_at ≠ none then
      { messages := newMessages, editingId := none, editingMessage := none,
        editContent := "", notified := true }
    else if u.edited_at ≠ none then
      { messages := newMessages, editingId := editingId,
        editingMessage := editingMessage, editContent := u.content,
        notified := true }
    else
      { messages := newMessages, editingId := editingId,
        editingMessage := editingMessage, editContent := editContent,
        notified := false }
  else
    { messages := newMessages, editingId := editingId,
      editingMessage := editingMessage, editContent := editContent,
      notified := false }

/-- The message "hello world" from bob, under local edit by alice. -/
def cMsgM : Message :=
  { id := "m1", content := "hello world", sender_id := "bob",
    receiver_id := "alice", created_at := 10, read_at := none,
    deleted_at := none, edited_at := none, original_content := none,
    deleted_by := none }

/-- The remote edit by the sender bob: content "hello there". -/
def cRemoteEdit : MessagePayload :=
  { id := "m1", content := "hello there", sender_id := "bob",
    receiver_id := "alice", created_at := 10, read_at := none,
    deleted_at := none, edited_at := some 20,
    original_content := some "hello world", deleted_by := none }

/-- C7 counterexample, on the spec's literal scenario (local draft
"hello wor", remote edit sets content "hello there"): in
ChatRoom.handleMessageUpdate the Pending Edit does not become null — the
editing ref and editingMessage survive and only the draft is replaced by
the remote content — even though the notification fires and the store
content becomes "hello there". -/
theorem pending_edit_not_cleared_on_remote_edit :
    (chatRoomUpdateHandler [cMsgM] (some "m1") (some cMsgM) "hello wor"
        (some "alice") cRemoteEdit).editingId = some "m1"
    ∧ (chatRoomUpdateHandler [cMsgM] (some "m1") (some cMsgM) "hello wor"
        (some "alice") cRemoteEdit).editingMessage = some cMsgM
    ∧ (chatRoomUpdateHandler [cMsgM] (some "m1") (some cMsgM) "hello wor"
        (some "alice") cRemoteEdit).editContent = "hello there"
    ∧ (chatRoomUpdateHandler [cMsgM] (some "m1") (some cMsgM) "hello wor"
        (some "alice") cRemoteEdit).notified = true
    ∧ (chatRoomUpdateHandler [cMsgM] (some "m1") (some cMsgM) "hello wor"
        (some "alice") cRemoteEdit).messages.map Message.content = ["hello there"] := by
  decide

/-- C7 amended: when a remote update from the other party targets the
message under Pending Edit, the useChat postgres-changes handler clears the
edit state, notifies, and the store content becomes the event's content;
the ChatRoom direct-channel handler notifies and replaces the edit draft
with the event's content while keeping the Pending Edit active (it clears
the edit state only for a deletion event), and also sets the store content
to the event's content. -/
theorem edit_invalidation (messages : List Message) (em : Message)
    (ec cu : String) (u : MessagePayload) (hid : em.id = u.id)
    (hsender : u.sender_id ≠ cu) (hedit : u.edited_at ≠ none)
    (hdel : u.deleted_at = none) :
    ((useChatUpdateHandler messages (some em) ec cu u).editingMessage = none
      ∧ (useChatUpdateHandler messages (some em) ec cu u).editContent = ""
      ∧ (useChatUpdateHandler messages (some em) ec cu u).notified = true
      ∧ ((useChatUpdateHandler messages (some em) ec cu u).messages.find?
            (fun m => m.id == u.id)).map Message.content
          = ((messages.find? (fun m => m.id == u.id)).map fun _ => u.content))
    ∧ ((chatRoomUpdateHandler messages (some u.id) (some em) ec (some cu) u).editingId
          = some u.id
      ∧ (chatRoomUpdateHandler messages (some u.id) (some em) ec (some cu) u).editingMessage
          = some em
      ∧ (chatRoomUpdateHandler messages (some u.id) (some em) ec (some cu) u).editContent
          = u.content
      ∧ (chatRoomUpdateHandler messages (some u.id) (some em) ec (some cu) u).notified
          = true
      ∧ ((chatRoomUpdateHandler messages (some u.id) (some em) ec (some cu) u).messages.find?
            (fun m => m.id == u.id)).map Message.content
          = ((messages.find? (fun m => m.id == u.id)).map fun _ => u.content)) := by
  have hguard1 : (some em).map Message.id = some u.id ∧ u.sender_id ≠ cu :=
    ⟨by simp [hid], hsender⟩
  have hguard2 : some u.id = some u.id ∧ some u.sender_id ≠ some cu :=
    ⟨rfl, by simpa using hsender⟩
  have hfind1 : ((useChatUpdateMessages messages u).find? (fun m => m.id == u.id)).map
      Message.content = ((messages.find? (fun m => m.id == u.id)).map fun _ => u.content) := by
    unfold useChatUpdateMessages
    rw [find_updateFirst _ _ (fun m _ => by simp [rowToMessage])]
    rw [Option.map_map]
    rfl
  have hfind2 : ((chatRoomUpdateMessages messages u).find? (fun m => m.id == u.id)).map
      Message.content = ((messages.find? (fun m => m.id == u.id)).map fun _ => u.content) := by
    unfold chatRoomUpdateMessages
    rw [find_updateFirst _ _ (fun m hm => by simpa [mergeMessage] using hm)]
    rw [Option.map_map]
    rfl
  constructor
  · unfold useChatUpdateHandler
    rw [if_pos hguard1]
    exact ⟨rfl, rfl, rfl, hfind1⟩
  · unfold chatRoomUpdateHandler
    rw [if_pos hguard2, if_neg (by simp [hdel]), if_pos hedit]
    exact ⟨rfl, rfl, rfl, rfl, hfind2⟩

/-- C7 amended witness: on the literal scenario, the useChat handler clears
the pending edit with a notification and the store picks up the remote
content. -/
theorem edit_invalidation_witness :
    (useChatUpdateHandler [cMsgM] (some cMsgM) "hello wor" "alice"
        cRemoteEdit).editingMessage = none
    ∧ (useChatUpdateHandler [cMsgM] (some cMsgM) "hello wor" "alice"
        cRemoteEdit).notified = true :=
  ⟨(edit_invalidation [cMsgM] cMsgM "hello wor" "alice" cRemoteEdit
      (by decide) (by decide) (by decide) (by decide)).1.1,
   (edit_invalidation [cMsgM] cMsgM "hello wor" "alice" cRemoteEdit
      (by decide) (by decide) (by decide) (by decide)).1.2.2.1⟩

/-- Delete-signal handler shared by useChat's postgres-changes DELETE
callback and ChatRoom.handleMessageDelete: if a message with the deleted id
is present, the list is filtered to exclude it; otherwise no change. -/
def handleMessageDelete (prev : List Message) (deletedMessageId : String) :
    List Message :=
  if prev.any (fun m => m.id == deletedMessageId) then
    prev.filter (fun m => m.id != deletedMessageId)
  else prev

/-- Outcome of a coordinator operation: the next message list, whether a
remote call was issued, and whether a user-facing error was shown. -/
structure DeleteResult where
  messages : List Message
  remoteCalled : Bool
  errorShown : Bool
deriving Repr, DecidableEq

/-- useChat.deleteMessage: reject (toast, no mutation, no remote call)
unless now - createdAt < 3600000 ms (one hour); otherwise optimistically
mark the message deleted, issue the remote update, and on failure revert
the entry to its prior snapshot and toast. -/
def deleteMessageUseChat (messages : List Message) (messageId : String)
    (createdAt : Int) (currentUserId : String) (now : Int) (remoteOk : Bool) :
    DeleteResult :=
  if ¬ (now - createdAt < 3600000) then
    { messages := messages, remoteCalled := false, errorShown := true }
  else
    match messages.find? (fun m => m.id == messageId) with
    | none => { messages := messages, remoteCalled := false, errorShown := false }
    | some messageToDelete =>
      let optimistic := messages.map (fun m =>
        if m.id == messageId then
          { m with deleted_at := some now, deleted_by := some currentUserId }
        else m)
      if remoteOk then
        { messages := optimistic, remoteCalled := true, errorShown := false }
      else
        { messages := optimistic.map (fun m =>
            if m.id == messageId then messageToDelete else m),
          remoteCalled := true, errorShown := true }

/-- ChatRoom.deleteMessage (first component): reject with a toast when the
message is older than 60 seconds ((now - createdAt)/1000 > 60); otherwise
issue the remote soft-delete update. It never touches the local list (the
real-time subscription is relied upon for that). -/
def deleteMessageChatRoom (messages : List Message) (_messageId : String)
    (createdAt : Int) (_sessionUserId : Option String) (now : Int)
    (remoteOk : Bool) : DeleteResult :=
  if now - createdAt > 60000 then
    { messages := messages, remoteCalled := false, errorShown := true }
  else if remoteOk then
    { messages := messages, remoteCalled := true, errorShown := false }
  else
    { messages := messages, remoteCalled := true, errorShown := true }

/-- C4 counterexample: a present message hit by a delete signal is removed
from the collection outright — the handler filters it out rather than
setting deleted_at — so a message is hard-removed from the local store
outside any pruning or teardown. -/
theorem delete_signal_removes_message :
    (msgAt "m1" 10).deleted_at = none ∧
      handleMessageDelete [msgAt "m1" 10] "m1" = [] := by
  decide

/-- C4 amended: a user-initiated delete within the recency window is a soft
update — the store keeps every id and the targeted entries get deleted_at
set — but the delete-signal handlers hard-remove the signalled id from the
local collection (messages with other ids are kept). -/
theorem soft_delete_locally_hard_remove_on_signal (messages : List Message)
    (messageId cu : String) (createdAt now : Int)
    (hrecent : now - createdAt < 3600000)
    (hfound : (messages.find? (fun m => m.id == messageId)).isSome) :
    ((deleteMessageUseChat messages messageId createdAt cu now true).messages.map
        Message.id = messages.map Message.id
      ∧ ∀ m ∈ (deleteMessageUseChat messages messageId createdAt cu now true).messages,
          m.id = messageId → m.deleted_at = some now)
    ∧ ((∀ m ∈ handleMessageDelete messages messageId, m.id ≠ messageId)
      ∧ ∀ m ∈ messages, m.id ≠ messageId → m ∈ handleMessageDelete messages messageId) := by
  constructor
  · rw [Option.isSome_iff_exists] at hfound
    obtain ⟨m0, hm0⟩ := hfound
    unfold deleteMessageUseChat
    rw [if_neg (by omega), hm0]
    dsimp only
    rw [if_pos rfl]
    constructor
    · rw [List.map_map]
      apply List.map_congr_left
      intro m _
      by_cases h : m.id == messageId
      · simp only [Function.comp_apply, h, if_pos]
      · simp only [Function.comp_apply, h]; rfl
    · intro m hm hid
      rcases List.mem_map.mp hm with ⟨m', _, rfl⟩
      by_cases h : m'.id == messageId
      · simp only [h, if_pos] at hid ⊢
      · rw [if_neg (by simpa using h)] at hid ⊢
        exact absurd hid (by simpa using h)
  · constructor
    · intro m hm
      unfold handleMessageDelete at hm
      by_cases h : messages.any (fun m' => m'.id == messageId)
      · rw [if_pos h] at hm
        have := List.of_mem_filter hm
        simpa using this
      · rw [if_neg h] at hm
        intro hid
        exact h (List.any_eq_true.mpr ⟨m, hm, by simpa using hid⟩)
    · intro m hm hid
      unfold handleMessageDelete
      by_cases h : messages.any (fun m' => m'.id == messageId)
      · rw [if_pos h]
        exact List.mem_filter.mpr ⟨hm, by simpa using hid⟩
      · rw [if_neg h]
        exact hm

/-- C4 amended witness: deleting a fresh own message keeps it in the store
with deleted_at set, while a delete signal for another id leaves other
messages in place. -/
theorem soft_delete_locally_hard_remove_on_signal_witness :
    ((deleteMessageUseChat [msgAt "m1" 10] "m1" 10 "alice" 20 true).messages.map
        Message.id = [msgAt "m1" 10].map Message.id
      ∧ ∀ m ∈ (deleteMessageUseChat [msgAt "m1" 10] "m1" 10 "alice" 20 true).messages,
          m.id = "m1" → m.deleted_at = some 20)
    ∧ ((∀ m ∈ handleMessageDelete [msgAt "m1" 10] "m1", m.id ≠ "m1")
      ∧ ∀ m ∈ [msgAt "m1" 10], m.id ≠ "m1" → m ∈ handleMessageDelete [msgAt "m1" 10] "m1") :=
  soft_delete_locally_hard_remove_on_signal [msgAt "m1" 10] "m1" "alice" 10 20
    (by decide) (by decide)

/-- C6. Recency-gated delete: in each layer, a delete attempt on a message
whose age exceeds that layer's window (one hour in useChat.deleteMessage,
60 seconds in ChatRoom.deleteMessage) is rejected with a user-facing error,
issues no remote call, and leaves the store unchanged. -/
theorem delete_recency_gate (messages : List Message) (mid cu : String)
    (createdAt now : Int) (ok : Bool) :
    (3600000 ≤ now - createdAt →
      deleteMessageUseChat messages mid createdAt cu now ok
        = { messages := messages, remoteCalled := false, errorShown := true })
    ∧ (60000 < now - createdAt →
      deleteMessageChatRoom messages mid createdAt (some cu) now ok
        = { messages := messages, remoteCalled := false, errorShown := true }) := by
  constructor
  · intro h
    unfold deleteMessageUseChat
    rw [if_pos (by omega)]
  · intro h
    unfold deleteMessageChatRoom
    rw [if_pos (by omega)]

/-- C6 witness: under the 60-second window a message created 61 seconds ago
is rejected with the store unchanged, and under the one-hour window a
message created exactly an hour ago is likewise rejected. -/
theorem delete_recency_gate_witness :
    deleteMessageChatRoom [msgAt "m1" 0] "m1" 0 (some "alice") 61000 true
        = { messages := [msgAt "m1" 0], remoteCalled := false, errorShown := true }
    ∧ deleteMessageUseChat [msgAt "m1" 0] "m1" 0 "alice" 3600000 true
        = { messages := [msgAt "m1" 0], remoteCalled := false, errorShown := true } :=
  ⟨(delete_recency_gate [msgAt "m1" 0] "m1" "alice" 0 61000 true).2 (by decide),
   (delete_recency_gate [msgAt "m1" 0] "m1" "alice" 0 3600000 true).1 (by decide)⟩

/-- Executable model of the JavaScript String.trim() used by the
coordinator: strip leading and trailing whitespace. -/
def trimStr (s : String) : String :=
  ⟨((s.data.dropWhile Char.isWhitespace).reverse.dropWhile Char.isWhitespace).reverse⟩

/-- Outcome of useChat.sendMessage: the next message list and the outbound
draft (the newMessage input state). -/
structure SendResult where
  messages : List Message
  draft : String
deriving Repr, DecidableEq

/-- useChat.sendMessage: guard on a non-empty trimmed draft and both user
ids; clear the draft; optimistically append a fresh message built from the
trimmed content, the generated id and the current timestamp; then submit
remotely. On failure, filter the optimistic id back out of the list and
restore the trimmed content to the draft. -/
def sendMessage (messages : List Message) (draft : String)
    (currentUserId otherUserId : Option String) (messageId : String)
    (timestamp : Int) (remoteOk : Bool) : SendResult :=
  match currentUserId, otherUserId with
  | some cu, some ou =>
    if trimStr draft = "" then { messages := messages, draft := draft }
    else
      let messageContent := trimStr draft
      let newMessageObj : Message :=
        { id := messageId, content := messageContent, sender_id := cu,
          receiver_id := ou, created_at := timestamp, read_at := none,
          deleted_at := none, edited_at := none, original_content := none,
          deleted_by := none }
      let optimistic := messages ++ [newMessageObj]
      if remoteOk then { messages := optimistic, draft := "" }
      else
        { messages := optimistic.filter (fun m => m.id != messageId),
          draft := messageContent }
  | _, _ => { messages := messages, draft := draft }

/-- C5. Optimistic rollback on send failure: when the remote submission
fails, the store ends with zero messages carrying the optimistic id — in
fact exactly the pre-send store, so no partial state remains — and the
outbound draft is restored to the content that was sent. -/
theorem send_failure_rolls_back (messages : List Message)
    (draft cu ou mid : String) (ts : Int)
    (hd : trimStr draft ≠ "") (hfresh : countId messages mid = 0) :
    (sendMessage messages draft (some cu) (some ou) mid ts false).messages = messages
    ∧ countId (sendMessage messages draft (some cu) (some ou) mid ts false).messages mid = 0
    ∧ (sendMessage messages draft (some cu) (some ou) mid ts false).draft = trimStr draft := by
  have hmain :
      (sendMessage messages draft (some cu) (some ou) mid ts false).messages = messages := by
    unfold sendMessage
    dsimp only
    rw [if_neg hd]
    rw [List.filter_append]
    have h1 : messages.filter (fun m => m.id != mid) = messages := by
      apply List.filter_eq_self.mpr
      intro m hm
      have : m.id ≠ mid := by
        intro heq
        apply absurd hfresh
        unfold countId
        have : m ∈ messages.filter (fun m' => m'.id == mid) :=
          List.mem_filter.mpr ⟨hm, by simpa using heq⟩
        intro hzero
        rw [List.length_eq_zero] at hzero
        rw [hzero] at this
        exact (List.not_mem_nil m) this
      simpa using this
    have h2 : List.filter (fun m => m.id != mid)
        [({ id := mid, content := trimStr draft, sender_id := cu, receiver_id := ou,
            created_at := ts, read_at := none, deleted_at := none, edited_at := none,
            original_content := none, deleted_by := none } : Message)] = [] := by
      simp
    rw [h1, h2, List.append_nil]
    rfl
  refine ⟨hmain, ?_, ?_⟩
  · rw [hmain]; exact hfresh
  · unfold sendMessage
    dsimp only
    rw [if_neg hd]
    rfl

/-- C5 witness: a failed send of " hello " leaves the one-message store as
it was, with no copy of the optimistic id, and puts "hello" back in the
draft. -/
theorem send_failure_rolls_back_witness :
    (sendMessage [msgAt "a" 1] " hello " (some "alice") (some "bob") "x9" 5
        false).messages = [msgAt "a" 1]
    ∧ countId (sendMessage [msgAt "a" 1] " hello " (some "alice") (some "bob")
        "x9" 5 false).messages "x9" = 0
    ∧ (sendMessage [msgAt "a" 1] " hello " (some "alice") (some "bob") "x9" 5
        false).draft = trimStr " hello " :=
  send_failure_rolls_back [msgAt "a" 1] " hello " "alice" "bob" "x9" 5
    (by decide) (by decide)

/-- Outcome of useChat.editMessage: the next message list, the editing
state, and whether the failure toast was shown. -/
structure EditResult where
  messages : List Message
  editingMessage : Option Message
  editContent : String
  errorShown : Bool
deriving Repr, DecidableEq

/-- useChat.editMessage: guard on a non-empty trimmed draft, the current
user and an active editing message; snapshot the editing message; apply the
new content, edited_at and original_content optimistically; clear the edit
state; submit remotely; on failure map the entry back to the snapshot and
toast (the edit state stays cleared — the error is caught inside the
hook). -/
def editMessage (messages : List Message) (editingMessage : Option Message)
    (editContent : String) (currentUserId : Option String) (messageId : String)
    (now : Int) (remoteOk : Bool) : EditResult :=
  match currentUserId, editingMessage with
  | some _cu, some em =>
    if trimStr editContent = "" then
      { messages := messages, editingMessage := editingMessage,
        editContent := editContent, errorShown := false }
    else
      let newContent := trimStr editContent
      let originalContent := em.content
      let originalMessage := em
      let optimistic := messages.map (fun m =>
        if m.id == messageId then
          { m with
            content := newContent
            edited_at := some now
            original_content := some originalContent }
        else m)
      if remoteOk then
        { messages := optimistic, editingMessage := none, editContent := "",
          errorShown := false }
      else
        { messages := optimistic.map (fun m =>
            if m.id == messageId then originalMessage else m),
          editingMessage := none, editContent := "", errorShown := true }
  | _, _ =>
    { messages := messages, editingMessage := editingMessage,
      editContent := editContent, errorShown := false }

/-- C8 counterexample: a failed edit of cMsgM (draft "new text") rolls the
store back, but the Pending Edit is not restored: the editing state ends
cleared (none, "") rather than ({messageId, draftContent}), leaving the
user nothing to retry from. -/
theorem pending_edit_not_restored_on_failure :
    (editMessage [cMsgM] (some cMsgM) "new text" (some "bob") "m1" 20
        false).messages = [cMsgM]
    ∧ (editMessage [cMsgM] (some cMsgM) "new text" (some "bob") "m1" 20
        false).editingMessage = none
    ∧ (editMessage [cMsgM] (some cMsgM) "new text" (some "bob") "m1" 20
        false).editContent = ""
    ∧ (editMessage [cMsgM] (some cMsgM) "new text" (some "bob") "m1" 20
        false).errorShown = true := by
  decide

lemma map_ite_rollback (messages : List Message) (em : Message)
    (f : Message → Message) (hf : ∀ m, (f m).id = m.id)
    (hem : ∀ m ∈ messages, m.id = em.id → m = em) :
    (messages.map (fun m => if m.id == em.id then f m else m)).map
      (fun m => if m.id == em.id then em else m) = messages := by
  rw [List.map_map]
  have hcong : ∀ m ∈ messages,
      ((fun m => if m.id == em.id then em else m) ∘
        fun m => if m.id == em.id then f m else m) m = id m := by
    intro m hm
    by_cases h : m.id == em.id
    · simp only [Function.comp_apply, h, if_pos, id]
      rw [if_pos (by rw [hf m]; exact h)]
      exact (hem m hm (by simpa using h)).symm
    · have hne : ¬ m.id = em.id := by simpa using h
      simp [hne]
  rw [List.map_congr_left hcong, List.map_id]

/-- C8 amended: on remote edit failure the store entry is rolled back to
the exact pre-edit snapshot (when the store's entries for the edited id
equal the snapshot being edited, the whole list is restored), and a failure
toast is shown; but the Pending Edit is cleared rather than restored — the
hook swallows the error, so ChatRoom.handleSaveEdit's retry bookkeeping
never runs. -/
theorem edit_failure_rolls_back_store (messages : List Message) (em : Message)
    (ec cu : String) (now : Int) (hec : trimStr ec ≠ "")
    (hem : ∀ m ∈ messages, m.id = em.id → m = em) :
    (editMessage messages (some em) ec (some cu) em.id now false).messages = messages
    ∧ (editMessage messages (some em) ec (some cu) em.id now false).editingMessage = none
    ∧ (editMessage messages (some em) ec (some cu) em.id now false).editContent = ""
    ∧ (editMessage messages (some em) ec (some cu) em.id now false).errorShown = true := by
  have hmain : (editMessage messages (some em) ec (some cu) em.id now
      false).messages = messages := by
    unfold editMessage
    dsimp only
    rw [if_neg hec, if_neg (show ¬(false = true) by decide)]
    exact map_ite_rollback messages em
      (fun m => { m with
        content := trimStr ec
        edited_at := some now
        original_content := some em.content }) (fun m => rfl) hem
  refine ⟨hmain, ?_, ?_, ?_⟩ <;>
    · unfold editMessage
      dsimp only
      rw [if_neg hec, if_neg (show ¬(false = true) by decide)]

/-- C8 amended witness: the concrete failed edit restores the store and
shows the error with the edit state cleared. -/
theorem edit_failure_rolls_back_store_witness :
    (editMessage [cMsgM] (some cMsgM) "fixed" (some "bob") cMsgM.id 20
        false).messages = [cMsgM]
    ∧ (editMessage [cMsgM] (some cMsgM) "fixed" (some "bob") cMsgM.id 20
        false).editingMessage = none
    ∧ (editMessage [cMsgM] (some cMsgM) "fixed" (some "bob") cMsgM.id 20
        false).editContent = ""
    ∧ (editMessage [cMsgM] (some cMsgM) "fixed" (some "bob") cMsgM.id 20
        false).errorShown = true :=
  edit_failure_rolls_back_store [cMsgM] cMsgM "fixed" "bob" 20 (by decide)
    (by decide)

/-- The pagination query of useChat.loadMoreMessages: the conversation's
remote rows with created_at strictly below the local oldest, ordered by
created_at descending, limited to 20. The remote store is modelled as a
list of rows and the ORDER BY as a sort with the descending comparison. -/
def queryOlderDesc (remote : List Message) (oldest : Int) : List Message :=
  ((remote.filter (fun m => m.created_at < oldest)).mergeSort
    (fun a b => b.created_at ≤ a.created_at)).take 20

/-- Outcome of useChat.loadMoreMessages: the next message list and the
returned count. -/
structure LoadMoreResult where
  messages : List Message
  count : Nat
deriving Repr, DecidableEq

/-- useChat.loadMoreMessages: return 0 and change nothing when either user
id is missing, the store is empty, or a fetch is already in flight;
otherwise fetch up to 20 messages older than messages[0], prepend them
reversed back into ascending order, and return how many were fetched
(0 when none). -/
def loadMoreMessages (messages : List Message) (remote : List Message)
    (idsPresent : Bool) (isDataFetching : Bool) : LoadMoreResult :=
  if !idsPresent || messages.isEmpty || isDataFetching then
    { messages := messages, count := 0 }
  else
    match messages with
    | [] => { messages := messages, count := 0 }
    | oldestMessage :: _ =>
      let data := queryOlderDesc remote oldestMessage.created_at
      if 0 < data.length then
        { messages := data.reverse ++ messages, count := data.length }
      else
        { messages := messages, count := 0 }

/-- The scroll adjustment in ChatRoom.handleScroll after a load: only when
the user is near the top and a nonzero count was loaded does it set
scrollTop to the height difference (clamped at 0); none means the scroll
position is left untouched. -/
def handleScrollAdjust (scrollTop prevScrollHeight newScrollHeight : Int)
    (messagesLoaded : Nat) : Option Int :=
  if scrollTop < 100 then
    if messagesLoaded = 0 then none
    else some (if newScrollHeight - prevScrollHeight > 0 then
      newScrollHeight - prevScrollHeight else 0)
  else none

lemma mem_queryOlderDesc {remote : List Message} {t : Int} {m : Message}
    (h : m ∈ queryOlderDesc remote t) : m ∈ remote ∧ m.created_at < t := by
  unfold queryOlderDesc at h
  have h1 := List.Sublist.mem h (List.take_sublist _ _)
  have h2 := (List.mergeSort_perm _ _).mem_iff.mp h1
  have h3 := List.mem_filter.mp h2
  exact ⟨h3.1, by simpa using h3.2⟩

lemma queryOlderDesc_sorted_desc (remote : List Message) (t : Int) :
    (queryOlderDesc remote t).Pairwise (fun a b => b.created_at ≤ a.created_at) := by
  unfold queryOlderDesc
  apply List.Pairwise.sublist (List.take_sublist _ _)
  have h := @List.sorted_mergeSort Message
    (fun a b : Message => b.created_at ≤ a.created_at)
    (fun a b c hab hbc => by simp only [decide_eq_true_eq] at *; omega)
    (fun a b => by simp only [Bool.or_eq_true, decide_eq_true_eq]; omega)
    (remote.filter (fun m => m.created_at < t))
  exact h.imp (fun hab => by simpa using hab)

lemma queryOlderDesc_length_le (remote : List Message) (t : Int) :
    (queryOlderDesc remote t).length ≤ 20 := by
  unfold queryOlderDesc
  rw [List.length_take]
  exact min_le_left _ _

/-- C9. Pagination: with the user ids present and no fetch in flight,
loadMoreMessages (1) loads at most the page size of 20; (2) only prepends
— the original list survives as the suffix after the loaded count; (3)
preserves ascending created_at order of the snapshot; (4) loads only
messages of the remote store strictly older than the locally-oldest
message; (5) on an empty store returns 0 with the store unchanged; (6)
returns 0 with the store unchanged when no older history exists; and (7) a
load count of 0 never adjusts the caller's scroll position. -/
theorem load_more_pagination (messages remote : List Message)
    (hsorted : sortedByCreatedAt messages) :
    (loadMoreMessages messages remote true false).count ≤ 20
    ∧ (loadMoreMessages messages remote true false).messages.drop
        (loadMoreMessages messages remote true false).count = messages
    ∧ sortedByCreatedAt (loadMoreMessages messages remote true false).messages
    ∧ (∀ m ∈ (loadMoreMessages messages remote true false).messages.take
          (loadMoreMessages messages remote true false).count,
        m ∈ remote ∧ ∀ hd ∈ messages.head?, m.created_at < hd.created_at)
    ∧ (messages = [] →
        loadMoreMessages messages remote true false
          = { messages := messages, count := 0 })
    ∧ (∀ hd ∈ messages.head?, (∀ m ∈ remote, ¬ m.created_at < hd.created_at) →
        loadMoreMessages messages remote true false
          = { messages := messages, count := 0 })
    ∧ (∀ st ph nh : Int, handleScrollAdjust st ph nh 0 = none) := by
  have hscroll : ∀ st ph nh : Int, handleScrollAdjust st ph nh 0 = none := by
    intro st ph nh
    unfold handleScrollAdjust
    split
    · rw [if_pos rfl]
    · rfl
  cases messages with
  | nil =>
    have hnil : loadMoreMessages [] remote true false
        = { messages := [], count := 0 } := by
      unfold loadMoreMessages
      rfl
    rw [hnil]
    refine ⟨Nat.zero_le _, rfl, List.Pairwise.nil, ?_, fun _ => rfl, ?_, hscroll⟩
    · intro m hm
      simp at hm
    · intro hd hhd
      simp at hhd
  | cons hd rest =>
    have hred : loadMoreMessages (hd :: rest) remote true false
        = if 0 < (queryOlderDesc remote hd.created_at).length then
            { messages := (queryOlderDesc remote hd.created_at).reverse ++ hd :: rest,
              count := (queryOlderDesc remote hd.created_at).length }
          else { messages := hd :: rest, count := 0 } := by
      unfold loadMoreMessages
      rw [if_neg (by simp)]
    by_cases hlen : 0 < (queryOlderDesc remote hd.created_at).length
    · rw [hred, if_pos hlen]
      have hdatarev : ∀ m ∈ (queryOlderDesc remote hd.created_at).reverse,
          m ∈ remote ∧ m.created_at < hd.created_at := by
        intro m hm
        exact mem_queryOlderDesc (List.mem_reverse.mp hm)
      have hcount : (queryOlderDesc remote hd.created_at).length
          = (queryOlderDesc remote hd.created_at).reverse.length :=
        (List.length_reverse _).symm
      refine ⟨queryOlderDesc_length_le remote hd.created_at, ?_, ?_, ?_, ?_, ?_, hscroll⟩
      · rw [hcount, List.drop_left]
      · unfold sortedByCreatedAt
        rw [List.pairwise_append]
        refine ⟨?_, hsorted, ?_⟩
        · rw [List.pairwise_reverse]
          exact (queryOlderDesc_sorted_desc remote hd.created_at).imp
            (fun hab => hab)
        · intro a ha b hb
          have h1 : a.created_at < hd.created_at := (hdatarev a ha).2
          have h2 : hd.created_at ≤ b.created_at := by
            rcases List.mem_cons.mp hb with rfl | hb'
            · omega
            · exact (List.pairwise_cons.mp hsorted).1 b hb'
          omega
      · rw [hcount, List.take_left]
        intro m hm
        refine ⟨(hdatarev m hm).1, ?_⟩
        intro h hh
        simp only [List.head?_cons, Option.mem_def, Option.some_inj] at hh
        subst hh
        exact (hdatarev m hm).2
      · intro h
        cases h
      · intro h0 hh0 hnone
        simp only [List.head?_cons, Option.mem_def, Option.some_inj] at hh0
        subst hh0
        exfalso
        have hfil : remote.filter (fun m => m.created_at < hd.created_at) = [] :=
          List.filter_eq_nil_iff.mpr (fun a ha => by simpa using hnone a ha)
        have hq : queryOlderDesc remote hd.created_at = [] := by
          unfold queryOlderDesc
          rw [hfil]
          simp
        rw [hq] at hlen
        simp at hlen
    · rw [hred, if_neg hlen]
      refine ⟨Nat.zero_le _, rfl, hsorted, ?_, ?_, fun _ _ _ => rfl, hscroll⟩
      · intro m hm
        simp at hm
      · intro h
        cases h

/-- C9 witness: from a store holding only the message at time 5, with the
remote store holding one older and one newer message, the pagination
conclusions evaluate as stated. -/
theorem load_more_pagination_witness :
    (loadMoreMessages [msgAt "b" 5] [msgAt "a" 1, msgAt "c" 9] true
        false).count ≤ 20
    ∧ (loadMoreMessages [msgAt "b" 5] [msgAt "a" 1, msgAt "c" 9] true
        false).messages.drop
        (loadMoreMessages [msgAt "b" 5] [msgAt "a" 1, msgAt "c" 9] true
          false).count = [msgAt "b" 5]
    ∧ sortedByCreatedAt (loadMoreMessages [msgAt "b" 5]
        [msgAt "a" 1, msgAt "c" 9] true false).messages :=
  ⟨(load_more_pagination [msgAt "b" 5] [msgAt "a" 1, msgAt "c" 9]
      (by decide)).1,
   (load_more_pagination [msgAt "b" 5] [msgAt "a" 1, msgAt "c" 9]
      (by decide)).2.1,
   (load_more_pagination [msgAt "b" 5] [msgAt "a" 1, msgAt "c" 9]
      (by decide)).2.2.1⟩

/-- Remote effect of useChat.markMessagesAsRead: some ids models the single
batched .update({read_at}).in("id", ids) call, none models no remote call.
By construction at most one remote update is issued per invocation. -/
structure MarkReadResult where
  messages : List Message
  remoteCall : Option (List String)
deriving Repr, DecidableEq

/-- useChat.markMessagesAsRead: with both user ids present, collect the
messages whose receiver is the current user and whose read_at and
deleted_at are null; when any exist, issue one remote update targeting
exactly their ids. The local list is never touched (the store is updated
only through the subscription). -/
def markMessagesAsRead (messages : List Message)
    (currentUserId otherUserId : Option String) : MarkReadResult :=
  match currentUserId, otherUserId with
  | some cu, some _ou =>
    let unreadMessages := messages.filter (fun m =>
      m.receiver_id == cu && m.read_at == none && m.deleted_at == none)
    if 0 < unreadMessages.length then
      { messages := messages, remoteCall := some (unreadMessages.map Message.id) }
    else
      { messages := messages, remoteCall := none }
  | _, _ => { messages := messages, remoteCall := none }

/-- C10. markMessagesAsRead never mutates the store; when no message has
the current user as receiver with read_at and deleted_at null it performs
no remote call; and when it does call, the single batched update targets
exactly the ids of those messages — in particular never an already-read,
deleted, or differently-addressed message. -/
theorem mark_read_targets (messages : List Message) (cu ou : String)
    (hnd : (messages.map Message.id).Nodup) :
    (markMessagesAsRead messages (some cu) (some ou)).messages = messages
    ∧ ((∀ m ∈ messages,
          ¬(m.receiver_id = cu ∧ m.read_at = none ∧ m.deleted_at = none)) →
        (markMessagesAsRead messages (some cu) (some ou)).remoteCall = none)
    ∧ (∀ ids,
        (markMessagesAsRead messages (some cu) (some ou)).remoteCall = some ids →
        (∀ i ∈ ids, ∃ m ∈ messages, m.id = i ∧ m.receiver_id = cu
          ∧ m.read_at = none ∧ m.deleted_at = none)
        ∧ ∀ m ∈ messages, (m.id ∈ ids ↔
            (m.receiver_id = cu ∧ m.read_at = none ∧ m.deleted_at = none))) := by
  have hpred : ∀ m : Message,
      ((m.receiver_id == cu && m.read_at == none && m.deleted_at == none) = true)
        ↔ (m.receiver_id = cu ∧ m.read_at = none ∧ m.deleted_at = none) := by
    intro m
    constructor
    · intro h
      simp only [Bool.and_eq_true, beq_iff_eq] at h
      exact ⟨h.1.1, h.1.2, h.2⟩
    · intro h
      simp only [Bool.and_eq_true, beq_iff_eq]
      exact ⟨⟨h.1, h.2.1⟩, h.2.2⟩
  refine ⟨?_, ?_, ?_⟩
  · unfold markMessagesAsRead
    dsimp only
    split <;> rfl
  · intro hnone
    unfold markMessagesAsRead
    dsimp only
    rw [if_neg]
    intro hpos
    have hne : messages.filter (fun m =>
        m.receiver_id == cu && m.read_at == none && m.deleted_at == none) ≠ [] := by
      intro hnil
      rw [hnil] at hpos
      simp at hpos
    rcases List.exists_mem_of_ne_nil _ hne with ⟨x, hx⟩
    rcases List.mem_filter.mp hx with ⟨hxs, hxp⟩
    exact hnone x hxs ((hpred x).mp hxp)
  · intro ids hids
    unfold markMessagesAsRead at hids
    dsimp only at hids
    by_cases hpos : 0 < (messages.filter (fun m =>
        m.receiver_id == cu && m.read_at == none && m.deleted_at == none)).length
    · rw [if_pos hpos] at hids
      have hids' : ids = (messages.filter (fun m =>
          m.receiver_id == cu && m.read_at == none && m.deleted_at == none)).map
            Message.id := by
        simpa using hids.symm
      subst hids'
      constructor
      · intro i hi
        rcases List.mem_map.mp hi with ⟨m, hm, rfl⟩
        rcases List.mem_filter.mp hm with ⟨hms, hmp⟩
        exact ⟨m, hms, rfl, (hpred m).mp hmp⟩
      · intro m hm
        constructor
        · intro hmem
          rcases List.mem_map.mp hmem with ⟨m', hm', hid⟩
          rcases List.mem_filter.mp hm' with ⟨hm's, hm'p⟩
          have : m' = m := List.inj_on_of_nodup_map hnd hm's hm hid
          rw [← this]
          exact (hpred m').mp hm'p
        · intro hp
          exact List.mem_map.mpr ⟨m,
            List.mem_filter.mpr ⟨hm, (hpred m).mpr hp⟩, rfl⟩
    · rw [if_neg hpos] at hids
      exact absurd hids (by simp)

/-- C10 witness: with one unread incoming message and one outgoing message
in the store, one remote call targets exactly the unread one and the store
is unchanged. -/
theorem mark_read_targets_witness :
    (markMessagesAsRead [msgAt "in1" 1, msgAt "out1" 2]
        (some "bob") (some "alice")).messages = [msgAt "in1" 1, msgAt "out1" 2]
    ∧ ∀ ids, (markMessagesAsRead [msgAt "in1" 1, msgAt "out1" 2]
        (some "bob") (some "alice")).remoteCall = some ids →
        ∀ m ∈ [msgAt "in1" 1, msgAt "out1" 2], (m.id ∈ ids ↔
          (m.receiver_id = "bob" ∧ m.read_at = none ∧ m.deleted_at = none)) :=
  ⟨(mark_read_targets [msgAt "in1" 1, msgAt "out1" 2] "bob" "alice"
      (by decide)).1,
   fun ids hids => ((mark_read_targets [msgAt "in1" 1, msgAt "out1" 2] "bob"
      "alice" (by decide)).2.2 ids hids).2⟩
